import Mathlib

set_option maxRecDepth 100000

/-!
# Verification of the kaldi10 tensor pattern algebra against its specification

This file is a shallow embedding, in Lean 4, of the tensor-Pattern algebra of
the repository (files `tensor/pattern-extra-utils.cc`, `tensor/pattern-utils.cc`
and the header `tensor/tensor-pattern-utils.h`), together with theorems that
settle the frozen claims C1..C10 about it.

Modelling conventions, used throughout and referred to from the definitions:

* A `Pattern` in the C code holds fixed-size arrays `dims[]` / `strides[]` of
  capacity `KALDI_TENSOR_MAX_AXES = 5`, a `num_axes` field, an `offset` and a
  cached classification `code`.  The struct invariant (stated in the spec's
  data model) requires every unused trailing slot to hold `dim = 1, stride = 0`.
  We model `dims`/`strides` as lists whose length is `num_axes`; a read of slot
  `i` is `getD i 1` for dims and `getD i 0` for strides (with the stride read
  additionally guarded by the dims length), which reproduces exactly the values
  the C code reads from in-bounds unused slots.  Reads beyond the physical
  array (undefined behaviour in C) are given the same unused-slot values, and
  each place relying on this is noted.
* C integer types (`int32`, `int64`) are modelled as `Int`; overflow is not
  modelled (the concrete inputs used in the theorems are far from all bounds).
  C `/` and `%` on integers truncate toward zero, which is `Int.tdiv` /
  `Int.tmod`.
* `KALDI_PARANOID_ASSERT` / `KALDI_ASSERT` checks that merely diagnose are
  modelled as no-ops (they are compiled out in a normal build); a `KALDI_ERR`
  that aborts the computation is modelled as `Option.none` (a "crash").
* `std::vector::back()` applied to an empty vector (which the source performs
  in `FindOffsetsRecursive`) is undefined behaviour; it is modelled as a no-op,
  the only non-crashing total reading.  This is noted at the definition.
* A few statements in the source are not well-formed C++ (e.g. `pattern_in++`
  on a `const Pattern&`, `difference->append(a)`, a four-clause `for` header);
  for these the evident intended syntax (documented by the surrounding
  comments) is used, while every statement that *does* compile — including
  several that are clearly bugs — is reproduced exactly as written.
* Functions or predicates that the claims need but whose definitions are not
  part of the provided sources (only their declarations, callers or the spec
  describe them) are modelled from the spec; each such definition carries a
  doc comment starting with `Modelled from the spec:`.
-/

/-! ## Basic bit arithmetic (two's-complement model of C bitwise ops) -/

/-- Bitwise combination of two naturals, low bits first, with fuel 64
(matching the width of the widest C integer type involved). -/
def natBitw (f : Bool → Bool → Bool) : Nat → Nat → Nat → Nat
  | 0, _, _ => 0
  | fuel+1, a, b =>
      (if f (a % 2 = 1) (b % 2 = 1) then 1 else 0) + 2 * natBitw f fuel (a / 2) (b / 2)

/-- Two's-complement bitwise OR on `Int`, as C's `|` computes it.  A negative
number `-(m+1)` has bit pattern `¬ m`; the four sign cases below are the
standard de Morgan translations into operations on naturals. -/
def intLor (a b : Int) : Int :=
  if a ≥ 0 then
    if b ≥ 0 then natBitw (· || ·) 64 a.toNat b.toNat
    else -(natBitw (fun x y => x && !y) 64 (-(b+1)).toNat a.toNat) - 1
  else
    if b ≥ 0 then -(natBitw (fun x y => x && !y) 64 (-(a+1)).toNat b.toNat) - 1
    else -(natBitw (· && ·) 64 (-(a+1)).toNat (-(b+1)).toNat) - 1

/-- `c & ~(1 << k)` for a nonnegative `c` (the only case the source guards
with `code >= 0` before patching): clear a single bit. -/
def clearBit (c : Int) (k : Nat) : Int :=
  if (c.toNat / 2 ^ k) % 2 = 1 then c - (2 ^ k : Nat) else c

/-- `c & ~0x700` for a nonnegative `c`: clear bits 8, 9 and 10. -/
def clearBits8to10 (c : Int) : Int :=
  clearBit (clearBit (clearBit c 8) 9) 10

/-! ## The Pattern data type -/

/-- The Pattern struct of `tensor/tensor-pattern.h` (see modelling conventions
in the file header: `num_axes` is `dims.length`, unused slots are implicit). -/
structure Pattern where
  dims : List Int
  strides : List Int
  offset : Int
  code : Int
deriving DecidableEq, Repr, Inhabited

/-- `p.num_axes`. -/
def numAxes (p : Pattern) : Nat := p.dims.length

/-- Read `p.dims[i]`; an unused slot holds 1 (struct invariant). -/
def dimAt (p : Pattern) (i : Nat) : Int := p.dims.getD i 1

/-- Read `p.strides[i]`; an unused slot holds 0 (struct invariant). -/
def strideAt (p : Pattern) (i : Nat) : Int :=
  if i < p.dims.length then p.strides.getD i 0 else 0

/-- Write `p.dims[i] = v` (in-bounds writes only are ever performed on axes
`< num_axes`, matching the source). -/
def setDim (p : Pattern) (i : Nat) (v : Int) : Pattern :=
  { p with dims := p.dims.set i v }

/-- Write `p.strides[i] = v`. -/
def setStride (p : Pattern) (i : Nat) (v : Int) : Pattern :=
  { p with strides := p.strides.set i v }

/-- The memory-index set of a Pattern, as the spec defines it: all integers
`offset + Σ index_i * stride_i` with `index_i` ranging over `[0, dim_i)`,
enumerated as a list (with repeats possible). -/
def mindexList (p : Pattern) : List Int :=
  (List.range (numAxes p)).foldl
    (fun acc r => acc.flatMap
      (fun m => (List.range (dimAt p r).toNat).map (fun d => m + d * strideAt p r)))
    [p.offset]

/-- The memory-index set of a Pattern as a finite set of integers. -/
def mindexSetF (p : Pattern) : Finset Int := (mindexList p).toFinset

/-- Union of the memory-index sets of a list of Patterns. -/
def unionSets (l : List Pattern) : Finset Int :=
  l.foldl (fun acc p => acc ∪ mindexSetF p) ∅

/-- `NumElements()` from pattern-utils.cc: the product of the dims. -/
def numElementsM (p : Pattern) : Int :=
  (List.range (numAxes p)).foldl (fun a r => a * dimAt p r) 1

/-- Modelled from the spec: `IsValid(p)` (declared but not defined in the
provided sources).  Spec §3: every axis has dim ≥ 1; any axis with dim = 1 has
stride = 0; no two axes both have dim > 1 and identical stride; num_axes ≤
MAX_AXES = 5.  The equal-length requirement reflects the fixed-size arrays of
the struct. -/
def isValidM (p : Pattern) : Bool :=
  p.dims.length = p.strides.length && numAxes p ≤ 5 &&
  (List.range (numAxes p)).all (fun r =>
    dimAt p r ≥ 1 && (dimAt p r ≠ 1 || strideAt p r = 0)) &&
  (List.range (numAxes p)).all (fun r =>
    (List.range r).all (fun s =>
      !(dimAt p r > 1 && dimAt p s > 1 && strideAt p r = strideAt p s)))

/-- Modelled from the spec: `Broadcastable(a, b)` (only a declaration appears
in the provided header).  Spec §4.6: conceptually left-pad the shorter dims
vector (public order) with 1s, then each corresponding pair of dims must be
equal or one of them must be 1.  In the reversed private numbering, public
left-padding is reading the trailing unused slots, which `dimAt` returns as 1,
so the condition is pointwise over the larger axis count. -/
def broadcastableM (a b : Pattern) : Bool :=
  (List.range (max (numAxes a) (numAxes b))).all (fun r =>
    dimAt a r = dimAt b r || dimAt a r = 1 || dimAt b r = 1)

/-- Modelled from the spec: `IsCanonical(p)` (declared but not defined in the
provided sources).  Canonical form per spec §3 plus the properties the callers
in pattern-extra-utils.cc state for it (`FindAllStrides`: "These will all be
positive, since pattern1 and pattern2 are required to be in canonical form"):
valid; no trivial (dim = 1) axes, which §3 forces by requiring the
lowest-indexed dim>1 axis to carry the smallest stride; strides positive and
strictly increasing. -/
def isCanonicalM (p : Pattern) : Bool :=
  isValidM p && p.dims.all (fun d => d ≥ 2) &&
  (List.range (numAxes p)).all (fun r => strideAt p r > 0) &&
  (List.range (numAxes p)).all (fun r =>
    r + 1 ≥ numAxes p || strideAt p r < strideAt p (r+1))

/-! ## Canonicalization (modelled: not part of the provided sources) -/

/-- Insertion of a `(stride, dim)` pair into a list sorted lexicographically by
(stride, then dim). -/
def insertPair (x : Int × Int) : List (Int × Int) → List (Int × Int)
  | [] => [x]
  | y :: ys =>
      if x.1 < y.1 || (x.1 = y.1 && x.2 ≤ y.2) then x :: y :: ys
      else y :: insertPair x ys

/-- Stable insertion sort of `(stride, dim)` pairs by (stride, dim). -/
def sortPairs : List (Int × Int) → List (Int × Int)
  | [] => []
  | x :: xs => insertPair x (sortPairs xs)

/-- Modelled from the spec: `CanonicalizePattern` (declared and used by
pattern-extra-utils.cc but not defined in the provided sources).  It must
produce a Pattern in canonical form with the same memory-index set (spec
§4.1); per the canonical-form requirements above this flips every negative
stride (compensating in `offset` by `(dim-1)*stride`), drops trivial
(dim = 1) axes, and sorts the remaining axes by stride (ties by dim).  The
cached code is marked stale. -/
def canonicalizeM (p : Pattern) : Pattern :=
  let flipped : List (Int × Int) :=
    (List.range (numAxes p)).map (fun r =>
      let d := dimAt p r
      let s := strideAt p r
      if s < 0 then (-s, d) else (s, d))
  let offset' : Int :=
    (List.range (numAxes p)).foldl (fun acc r =>
      let s := strideAt p r
      if s < 0 then acc + (dimAt p r - 1) * s else acc) p.offset
  let kept := flipped.filter (fun sd => sd.2 ≠ 1)
  let sorted := sortPairs kept
  { dims := sorted.map Prod.snd, strides := sorted.map Prod.fst,
    offset := offset', code := -1 }

/-! ## ComputePatternCode (pattern-utils.cc) and the code it is documented
to compute -/

/-- `ComputePatternCode` from pattern-utils.cc, exactly as written: per axis,
if `dim != 1` the low bit of `ans` is set (and `n`/`found_negative_dim` are
updated — note the source tests `dim < 0`, not `stride < 0`), and then `ans`
is shifted left by one *every* iteration; finally `n << 8` and the
negative-dim bit 11 are OR-ed in.  The C code lacks a `return` statement; the
value of the expression `ans |= ...` (i.e. the updated `ans`) is the evident
intent and is what is returned here. -/
def computePatternCode (p : Pattern) : Int :=
  let st := (List.range (numAxes p)).foldl
    (fun (acc : Int × Int × Bool) raxis =>
      let (ans, n, neg) := acc
      let dim := dimAt p raxis
      let stride := strideAt p raxis
      if dim ≠ 1 then
        let ans := intLor ans 1
        let neg := neg || dim < 0
        let n := if stride = 1 then (raxis : Int) + 1 else n
        (ans * 2, n, neg)
      else
        (ans * 2, n, neg))
    (0, 0, false)
  intLor st.1 (intLor (st.2.1 * 256) (if st.2.2 then 2048 else 0))

/-- The pattern code as claim C4 (and the documentation of
`ComputePatternCode` in tensor-pattern-utils.h) describes it: bit `raxis` set
iff that axis has dim ≠ 1; bits 8–10 hold `n` = 0 when no axis has stride 1
and otherwise `1 + raxis` of the unique stride-1 axis; bit 11 set iff some
axis has a negative stride.  Stated from the claim's words for comparison
with `computePatternCode`. -/
def claimedPatternCode (p : Pattern) : Int :=
  let dimsBits : Int :=
    (List.range (numAxes p)).foldl
      (fun acc raxis => if dimAt p raxis ≠ 1 then acc + (2 ^ raxis : Nat) else acc) 0
  let n : Int :=
    match (List.range (numAxes p)).find? (fun raxis => strideAt p raxis = 1) with
    | some raxis => (raxis : Int) + 1
    | none => 0
  let negBit : Int :=
    if (List.range (numAxes p)).any (fun raxis => strideAt p raxis < 0) then 2048 else 0
  dimsBits + n * 256 + negBit

/-! ## ComputeMinAndMaxMindex (pattern-utils.cc) -/

/-- `ContainsNegativeStride` from tensor-pattern-utils.h, exactly as written:
`(pattern_code | kPatternContainsNegativeStride) != 0` — note the `|` where
`&` was evidently intended, which makes the test vacuously true. -/
def containsNegativeStride (code : Int) : Bool :=
  intLor code 2048 ≠ 0

/-- `ComputeMinAndMaxMindex` from pattern-utils.cc, exactly as written: in the
maybe-negative-strides branch (always taken, given `containsNegativeStride`)
it sums `(dim-1)*stride` into the max accumulator for positive strides and
into the min accumulator otherwise.  Note that neither branch adds
`pattern.offset` to the results. -/
def computeMinAndMaxMindex (p : Pattern) : Int × Int :=
  if containsNegativeStride p.code then
    (List.range (numAxes p)).foldl
      (fun (acc : Int × Int) raxis =>
        let prod := (dimAt p raxis - 1) * strideAt p raxis
        if strideAt p raxis > 0 then (acc.1, acc.2 + prod) else (acc.1 + prod, acc.2))
      (0, 0)
  else
    (0, (List.range (numAxes p)).foldl
      (fun acc raxis => acc + (dimAt p raxis - 1) * strideAt p raxis) 0)

/-! ## IsRegular (pattern-extra-utils.cc) -/

/-- The inner loop of `IsRegular`: scan `j` upward from `i+1`; stop (success)
when `strides[j] >= this_prod` or the axes run out; fail when the intervening
axis has `dims[j] != 1 || strides[j] % this_stride != 0`.  `fuel` bounds the
scan (called with `numAxes p`, always sufficient). -/
def isRegularScan (p : Pattern) (prod stride : Int) : Nat → Nat → Bool
  | 0, _ => true
  | fuel+1, j =>
      if j ≥ numAxes p then true
      else if strideAt p j ≥ prod then true
      else if dimAt p j ≠ 1 || Int.tmod (strideAt p j) stride ≠ 0 then false
      else isRegularScan p prod stride fuel (j+1)

/-- `IsRegular` from pattern-extra-utils.cc: for each `i` with `i+1 <
num_axes`, run the scan above with `this_prod = strides[i]*dims[i]`. -/
def isRegular (p : Pattern) : Bool :=
  (List.range (numAxes p)).all (fun i =>
    if i + 1 < numAxes p then
      isRegularScan p (strideAt p i * dimAt p i) (strideAt p i) (numAxes p) (i+1)
    else true)

/-- The index `k` of the regularity condition: the smallest `k > i` with
`strides[k] ≥ strides[i]*dims[i]`, or `num_axes` when none exists.  Defined by
the same upward scan shape as `isRegularScan` to ease the equivalence proof. -/
def kOfAux (p : Pattern) (prod : Int) : Nat → Nat → Nat
  | 0, _ => numAxes p
  | fuel+1, j =>
      if j ≥ numAxes p then numAxes p
      else if strideAt p j ≥ prod then j
      else kOfAux p prod fuel (j+1)

/-- `k` for axis `i` (see `kOfAux`). -/
def kOf (p : Pattern) (i : Nat) : Nat :=
  kOfAux p (strideAt p i * dimAt p i) (numAxes p) (i+1)

/-- The regularity property exactly as claim C5 words it (spec §3): for every
axis `i`, either `dim_i = 1` or every intervening axis `j` with `i < j < k`
has `dim_j = 1` *or* `stride_j` divisible by `stride_i`. -/
def claimedRegular (p : Pattern) : Bool :=
  (List.range (numAxes p)).all (fun i =>
    dimAt p i = 1 ||
    (List.range (numAxes p)).all (fun j =>
      !(decide (i < j) && decide (j < kOf p i)) ||
      (dimAt p j = 1 || Int.tmod (strideAt p j) (strideAt p i) = 0)))

/-- The regularity property as amended to match the code: the intervening-axis
condition is a conjunction — `dim_j = 1` *and* `stride_j` divisible by
`stride_i` — rather than the claim's disjunction. -/
def amendedRegular (p : Pattern) : Bool :=
  (List.range (numAxes p)).all (fun i =>
    dimAt p i = 1 ||
    (List.range (numAxes p)).all (fun j =>
      !(decide (i < j) && decide (j < kOf p i)) ||
      (dimAt p j = 1 && Int.tmod (strideAt p j) (strideAt p i) = 0)))

/-! ## Joint compression (pattern-utils.cc): NormalizeSigns, Combinable,
CombineAxes, RemoveTrivialAxes, CompressPatterns, CompressOnePattern -/

/-- The flip applied by `NormalizeSigns` once the first pattern-index `p` with
nonzero stride on axis `a` has been found negative: for every pattern `q ≥ p`
with nonzero stride on `a`, accumulate `(dim-1)*stride` into its data offset
and negate the stride. -/
def flipAxis (a : Nat) (firstP : Nat) (ps : List Pattern) (offs : List Int) :
    List Pattern × List Int :=
  ((List.range ps.length).foldl
    (fun (acc : List Pattern × List Int) q =>
      if q < firstP then acc
      else
        let pat := acc.1.getD q default
        if strideAt pat a ≠ 0 then
          let thisOff := (dimAt pat a - 1) * strideAt pat a
          (acc.1.set q (setStride pat a (-(strideAt pat a))),
           acc.2.set q (acc.2.getD q 0 + thisOff))
        else acc)
    (ps, offs))

/-- `NormalizeSigns` from pattern-utils.cc: for each axis, find the first
pattern with nonzero stride there; if that stride is negative, flip the sign
of that axis's stride in every pattern with nonzero stride there, recording
offset compensation.  (The source's `size` variable is its `num_patterns`.)
Returns the patterns, the data offsets and the `changed` flag. -/
def normalizeSigns (ps : List Pattern) (maxNumAxes : Nat) (offs : List Int) :
    List Pattern × List Int × Bool :=
  (List.range maxNumAxes).foldl
    (fun (acc : List Pattern × List Int × Bool) a =>
      let (ps, offs, changed) := acc
      match (List.range ps.length).find? (fun q => strideAt (ps.getD q default) a ≠ 0) with
      | none => (ps, offs, changed)
      | some p =>
          if strideAt (ps.getD p default) a < 0 then
            let (ps', offs') := flipAxis a p ps offs
            (ps', offs', true)
          else (ps, offs, changed))
    (ps, offs, false)

/-- `Combinable(p, raxis1, raxis2)` from pattern-utils.cc:
`strides[raxis2] == strides[raxis1] * dims[raxis1]` and the combined dim does
not overflow int32. -/
def combinable (p : Pattern) (raxis1 raxis2 : Nat) : Bool :=
  strideAt p raxis2 = strideAt p raxis1 * dimAt p raxis1 &&
  dimAt p raxis1 * dimAt p raxis2 < 2147483647

/-- `CombineAxes(patterns, raxis1, raxis2)` from pattern-utils.cc, exactly as
written.  Note two oddities kept faithfully: in the `raxis1 > raxis2` branch
the strides are multiplied (`strides[raxis2] *= strides[raxis1]`), and in the
other branch the source multiplies `dims[raxis1]` by itself and never touches
`strides[raxis1]`. -/
def combineAxes (ps : List Pattern) (raxis1 raxis2 : Nat) : List Pattern :=
  ps.map (fun pat =>
    if raxis1 > raxis2 then
      let pat := setDim pat raxis2 (dimAt pat raxis2 * dimAt pat raxis1)
      let pat := setStride pat raxis2 (strideAt pat raxis2 * strideAt pat raxis1)
      let pat := setDim pat raxis1 1
      setStride pat raxis1 0
    else
      let pat := setDim pat raxis1 (dimAt pat raxis1 * dimAt pat raxis1)
      let pat := setDim pat raxis2 1
      setStride pat raxis2 0)

/-- `RemoveTrivialAxes(is_trivial_raxis, patterns)` from pattern-utils.cc:
compact away the axes flagged trivial (keeping everything below the first
trivial axis in place), right-fill with dim = 1 / stride = 0 (implicit in the
list model) and shrink `num_axes` (removal of a flagged raxis that is `≥` a
given pattern's num_axes is a no-op). -/
def removeTrivialAxesL (trivial : List Bool) (ps : List Pattern) : List Pattern :=
  match (List.range trivial.length).find? (fun r => trivial.getD r false) with
  | none => ps
  | some first =>
      ps.map (fun pat =>
        let kept := (List.range (numAxes pat)).filterMap (fun r =>
          if r ≥ first && trivial.getD r false then none
          else some (dimAt pat r, strideAt pat r))
        { pat with dims := kept.map Prod.fst, strides := kept.map Prod.snd })

/-- One step of `CompressPatterns`' combining double loop for a fixed `raxis1`:
scan `raxis2` downward; if all patterns satisfy `Combinable(·, raxis1,
raxis2)` combine that way, else if all satisfy `Combinable(·, raxis2, raxis1)`
combine the other way; either success marks `raxis1` trivial and stops the
scan. -/
def combineScan (raxis1 : Nat) : Nat → List Pattern → List Bool →
    (List Pattern × List Bool × Bool)
  | 0, ps, triv => (ps, triv, false)
  | r2 + 1, ps, triv =>
      let raxis2 := r2
      if triv.getD raxis2 false then combineScan raxis1 r2 ps triv
      else if ps.all (fun p => combinable p raxis1 raxis2) then
        (combineAxes ps raxis1 raxis2, triv.set raxis1 true, true)
      else if ps.all (fun p => combinable p raxis2 raxis1) then
        (combineAxes ps raxis2 raxis1, triv.set raxis1 true, true)
      else combineScan raxis1 r2 ps triv

/-- The outer combining loop of `CompressPatterns`: `raxis1` from
`max_num_axes - 1` down to 0, skipping trivial axes. -/
def combineLoop : Nat → List Pattern → List Bool → Bool →
    (List Pattern × List Bool × Bool)
  | 0, ps, triv, ex => (ps, triv, ex)
  | r1 + 1, ps, triv, ex =>
      let raxis1 := r1
      if triv.getD raxis1 false then combineLoop r1 ps triv ex
      else
        let (ps', triv', found) := combineScan raxis1 raxis1 ps triv
        combineLoop r1 ps' triv' (ex || found)

/-- `CompressPatterns` from pattern-utils.cc.  Faithful points worth noting:
the combined code is the `|` of the (possibly stale, -1) cached codes; the
sign normalization runs whenever `ContainsNegativeStride(combined_code)`
(always true, given that predicate's `|` bug); an axis is detected trivial via
`(combined_code | mask) == 0` (never true, same `|`-for-`&` slip); codes are
recomputed at exit when anything changed.  Returns (patterns, data_offsets,
changed). -/
def compressPatterns (psIn : List Pattern) : List Pattern × List Int × Bool :=
  let offs0 : List Int := List.replicate psIn.length 0
  let maxNumAxes := psIn.foldl (fun m p => max m (numAxes p)) 0
  let combinedCode := psIn.foldl (fun c p => intLor c p.code)
      (match psIn with | [] => 0 | p :: _ => p.code)
  let (ps1, offs1, changed1) :=
    if containsNegativeStride combinedCode then normalizeSigns psIn maxNumAxes offs0
    else (psIn, offs0, false)
  let triv0 : List Bool := (List.range maxNumAxes).map
      (fun r => intLor combinedCode ((2 ^ r : Nat) : Int) = 0)
  let existsTriv0 := triv0.any id
  let (ps2, _triv1, existsTriv1) := combineLoop maxNumAxes ps1 triv0 existsTriv0
  let ps3 := if existsTriv1 then removeTrivialAxesL _triv1 ps2 else ps2
  let changed := changed1 || existsTriv1
  let ps4 := if changed then ps3.map (fun p => { p with code := computePatternCode p })
             else ps3
  (ps4, offs1, changed)

/-- `CompressOnePattern` from pattern-utils.cc: delegates to
`CompressPatterns({pattern}, data_offset)`.  Returns the compressed pattern
and the data offset. -/
def compressOnePattern (p : Pattern) : Pattern × Int :=
  let (ps, offs, _) := compressPatterns [p]
  (ps.getD 0 default, offs.getD 0 0)

/-! ## Axis mutators (pattern-utils.cc / tensor-pattern-utils.h) -/

/-- Modelled from the spec: `EaxisToRaxis` (used by `Slice` but not defined in
the provided sources): translate a public axis index, with the usual negative
wraparound, to the reversed private index: `num_axes - 1 - axis` for `axis ≥
0` and `-1 - axis` for negative `axis`. -/
def eaxisToRaxis (n : Nat) (axis : Int) : Int :=
  if axis < 0 then -1 - axis else (n : Int) - 1 - axis

/-- `Transpose(raxis1, raxis2, p)` (private-index overload) from
pattern-utils.cc: swap the two axes' dims and strides and mark the code
stale; `none` models the `KALDI_ERR` on an out-of-range axis. -/
def transposeR (raxis1 raxis2 : Nat) (p : Pattern) : Option Pattern :=
  if raxis1 ≥ numAxes p || raxis2 ≥ numAxes p then none
  else
    let d1 := dimAt p raxis1
    let d2 := dimAt p raxis2
    let s1 := strideAt p raxis1
    let s2 := strideAt p raxis2
    some { setStride (setDim (setStride (setDim p raxis1 d2) raxis1 s2) raxis2 d1)
             raxis2 s1 with code := -1 }

/-- `Slice(axis, start, end, pattern)` from pattern-utils.cc, exactly as
written.  Faithful points: the range check on `end` reads `dims[axis]` (the
public index used directly as a private subscript); on `new_dim == 1` the
statement `pattern->strides[raxis] == 0;` is a comparison, not an assignment,
so the stride is *not* zeroed; the cached-code patch clears bit `raxis - 1`
(not `raxis`), and clears bits 8-10 when the old stride was 1.  `none` models
the `KALDI_ERR` branch. -/
def sliceP (axis start stop : Int) (p : Pattern) : Option Pattern :=
  let n := numAxes p
  let raxisI := eaxisToRaxis n axis
  let dimsAtAxis : Int := if axis < 0 then 1 else dimAt p axis.toNat
  if raxisI < 0 || raxisI ≥ (n : Int) || stop ≤ start ||
     stop < 0 || stop ≥ dimsAtAxis then none
  else
    let raxis := raxisI.toNat
    let oldStride := strideAt p raxis
    let newDim := stop - start
    let p1 := setDim { p with offset := p.offset + strideAt p raxis * start } raxis newDim
    if newDim = 1 then
      -- `pattern->strides[raxis] == 0;` — a no-op comparison in the source.
      let code' :=
        if p1.code ≥ 0 then
          let c1 := if raxisI - 1 < 0 then p1.code  -- `1 << -1` is UB; not exercised
                    else clearBit p1.code (raxisI - 1).toNat
          if oldStride = 1 then clearBits8to10 c1 else c1
        else p1.code
      some { p1 with code := code' }
    else some p1

/-- `UnsqueezeR(raxis, src, dest)` from pattern-utils.cc (out-of-place use):
shift axes at and beyond `raxis` up by one and insert a dim = 1 / stride = 0
axis at `raxis`.  (The source's shift loop also writes the unused slot
`num_axes_in + 1`, which holds 1/0 before and after.)  The cached code is kept
only when `raxis == num_axes_in`, else marked stale.  `none` models the
always-on `KALDI_ASSERT (raxis <= num_axes && num_axes < KALDI_TENSOR_MAX_DIM)`
(capacity taken as the spec's MAX_AXES = 5). -/
def unsqueezeR (raxis : Nat) (src : Pattern) : Option Pattern :=
  let n := numAxes src
  if raxis > n || n ≥ 5 then none
  else some
    { dims := src.dims.take raxis ++ [1] ++ src.dims.drop raxis,
      strides := src.strides.take raxis ++ [0] ++ src.strides.drop raxis,
      offset := src.offset,
      code := if raxis ≠ n then -1 else src.code }

/-- `Unsqueeze(axis, p)` from tensor-pattern-utils.h, exactly as written:
`axis < 0` dispatches to `UnsqueezeR(1 - axis, p)`, otherwise to
`UnsqueezeR(p->num_axes - axis, p)` (a negative computed raxis models the
failed assert as `none`). -/
def unsqueeze (axis : Int) (p : Pattern) : Option Pattern :=
  if axis < 0 then
    unsqueezeR (1 - axis).toNat p
  else
    if (numAxes p : Int) - axis < 0 then none
    else unsqueezeR ((numAxes p : Int) - axis).toNat p

/-- Modelled from the spec: `SqueezeR(raxis, p)` (declared in
tensor-pattern-utils.h with its full contract, but its definition is not in
the provided sources): remove the axis at private position `raxis`, requiring
`0 <= raxis < num_axes` and `dims[raxis] == 1`; it is an error (`none`)
otherwise.  The code is updated (marked stale here). -/
def squeezeR (raxis : Nat) (p : Pattern) : Option Pattern :=
  if raxis ≥ numAxes p || dimAt p raxis ≠ 1 then none
  else some
    { dims := p.dims.take raxis ++ p.dims.drop (raxis + 1),
      strides := p.strides.take raxis ++ p.strides.drop (raxis + 1),
      offset := p.offset, code := -1 }

/-- `Squeeze(axis, p)` from tensor-pattern-utils.h, exactly as written:
`axis < 0` dispatches to `SqueezeR(1 - axis, p)`, otherwise to
`SqueezeR(p->num_axes - 1 - axis, p)`. -/
def squeeze (axis : Int) (p : Pattern) : Option Pattern :=
  if axis < 0 then
    squeezeR (1 - axis).toNat p
  else
    if (numAxes p : Int) - 1 - axis < 0 then none
    else squeezeR ((numAxes p : Int) - 1 - axis).toNat p

/-! ## Stride unification (pattern-extra-utils.cc): FindAllStrides,
ConvertPatternStridesLazily, EnsureAxisSortingPropertyHolds,
ConvertPatternStrides -/

/-- Insertion into a sorted list of integers. -/
def insertInt (x : Int) : List Int → List Int
  | [] => [x]
  | y :: ys => if x ≤ y then x :: y :: ys else y :: insertInt x ys

/-- Insertion sort of integers (the `SortAndUniq` sort). -/
def sortInts (l : List Int) : List Int := l.foldr insertInt []

/-- Remove duplicates from a sorted list (the `SortAndUniq` uniq). -/
def dedupSorted : List Int → List Int
  | [] => []
  | [x] => [x]
  | x :: y :: ys => if x = y then dedupSorted (y :: ys) else x :: dedupSorted (y :: ys)

/-- `FindAllStrides` from pattern-extra-utils.cc: the sorted duplicate-free
list of all stride values present in either pattern (each pattern contributes
`strides[raxis]` for `raxis < num_axes`). -/
def findAllStrides (p1 p2 : Pattern) : List Int :=
  dedupSorted (sortInts
    ((List.range (numAxes p1)).map (strideAt p1) ++
     (List.range (numAxes p2)).map (strideAt p2)))

/-- `ConvertPatternStridesLazily` from pattern-extra-utils.cc: walk the target
stride list, copying the input's dim whenever the input's next stride matches
the target stride and inserting dim = 1 otherwise.  (The source's `pattern_in++`
is the evident `raxis_in++`.)  If the walk fails to consume every input axis
the source raises `KALDI_ERR`; that abort is `none`. -/
def convertLazily (pin : Pattern) (strides : List Int) : Option Pattern :=
  let st := (List.range strides.length).foldl
    (fun (acc : Nat × List Int) raxisOut =>
      let stride := strides.getD raxisOut 0
      if strideAt pin acc.1 = stride then (acc.1 + 1, dimAt pin acc.1 :: acc.2)
      else (acc.1, (1 : Int) :: acc.2))
    (0, [])
  if st.1 ≠ numAxes pin then none
  else some { dims := st.2.reverse, strides := strides, offset := pin.offset, code := -1 }

/-- The first loop of `EnsureAxisSortingPropertyHolds`: scan `j` upward from
`i+1` looking for the break index `k` (`strides[j] >= this_prod`), falling off
the end leaves `k = num_axes`.  The failure test reads `dims[k]` and
`strides[k]` with `k` still equal to `num_axes` (the source's slip — the loop
only assigns `k` at the break), i.e. it always examines the unused slot, which
holds dim 1 / stride 0; `none` is the `return false`. -/
def easphScan (pat : Pattern) (prod stride : Int) : Nat → Nat → Option Nat
  | 0, _ => some (numAxes pat)
  | fuel+1, j =>
      if j ≥ numAxes pat then some (numAxes pat)
      else if strideAt pat j ≥ prod then some j
      else if dimAt pat (numAxes pat) ≠ 1 ||
              Int.tmod (strideAt pat (numAxes pat)) stride ≠ 0 then none
      else easphScan pat prod stride fuel (j+1)

/-- The second loop of `EnsureAxisSortingPropertyHolds`: `j` runs from `k-1`
down to `i+1` (the source's four-clause `for (; j = k - 1; j > i; j--)` header
is not well-formed C++; the evident intent `for (j = k - 1; j > i; j--)` is
used).  `steps` is `j - i`.  On a nonzero remainder a copy with `dims[i] =
remainder` and a bumped offset is appended, and — reproducing the source's
`pattern = (*patterns)[i]` (where `[pattern_index]` was evidently meant) — all
subsequent writes go to list index `i`. -/
def easphSplit (i : Nat) (thisDim thisStride : Int) :
    Nat → Nat → List Pattern → List Pattern
  | 0, _, ps => ps
  | steps+1, pi, ps =>
      let j := i + (steps + 1)
      let pat := ps.getD pi default
      let jStride := strideAt pat j
      let ratio := Int.tdiv jStride thisStride
      let jDim := Int.tdiv thisDim ratio
      let rem := Int.tmod thisDim ratio
      let next :=
        if rem ≠ 0 then
          let psGrown := ps ++ [default]
          let pi' := i
          let base := psGrown.getD pi' default
          let rp := { base with
            dims := base.dims.set i rem
            offset := base.offset + jStride * jDim }
          (psGrown.set (psGrown.length - 1) rp, pi')
        else (ps, pi)
      let pat1 := next.1.getD next.2 default
      let pat2 := setDim (setDim pat1 j jDim) i ratio
      easphSplit i thisDim thisStride steps next.2 (next.1.set next.2 pat2)

/-- `EnsureAxisSortingPropertyHolds(raxis, pattern_index, patterns)` from
pattern-extra-utils.cc: early success when `dims[i] == 1`; otherwise scan for
`k` (possibly failing — `none`) and then split/merge axes `k-1 .. i+1`. -/
def ensureASPH (raxis idx : Nat) (ps : List Pattern) : Option (List Pattern) :=
  let pat := ps.getD idx default
  let i := raxis
  let thisStride := strideAt pat i
  let thisDim := dimAt pat i
  if thisDim = 1 then some ps
  else
    match easphScan pat (thisStride * thisDim) thisStride (numAxes pat) (i+1) with
    | none => none
    | some k => some (easphSplit i thisDim thisStride (k - 1 - i) idx ps)

/-- Result of `ConvertPatternStrides`: `crashed` models the `KALDI_ERR` abort
inside `ConvertPatternStridesLazily`; `failed` is the `return false`
(pattern not regular); `ok` carries the output pattern list. -/
inductive ConvResult
  | crashed
  | failed
  | ok (l : List Pattern)
deriving DecidableEq, Repr

/-- The inner loop of `ConvertPatternStrides`: process pattern indices from 0;
the list may grow while being processed (`p < patterns->size()` is
re-evaluated), so the iteration carries fuel (100; generous — exhaustion
returns the current state and is unreachable in every use in this file). -/
def convertInner (raxis : Nat) : Nat → Nat → List Pattern → Option (List Pattern)
  | 0, _, ps => some ps
  | fuel+1, pIdx, ps =>
      if pIdx ≥ ps.length then some ps
      else match ensureASPH raxis pIdx ps with
        | none => none
        | some ps' => convertInner raxis fuel (pIdx+1) ps'

/-- `ConvertPatternStrides(pattern, strides, patterns)` from
pattern-extra-utils.cc: lazily convert, then for each `raxis` with `raxis + 1
< strides.size()` ensure the axis-sorting property for every pattern in the
(possibly growing) list. -/
def convertPatternStrides (pat : Pattern) (strides : List Int) : ConvResult :=
  match convertLazily pat strides with
  | none => .crashed
  | some p0 =>
      match (List.range (strides.length - 1)).foldlM
        (fun ps raxis => convertInner raxis 100 0 ps) [p0] with
      | none => .failed
      | some l => .ok l

/-! ## Offsets (pattern-extra-utils.cc): FindOffsetsRecursive / FindOffsets -/

/-- `FindOffsetsRecursive` from pattern-extra-utils.cc.  `fuel` is
`numAxes p1` at the top call and bounds the recursion (the source recurses on
the decreasing `raxis = num_axes - 1 - known_offsets->size()`).  Faithful
points: in the base case the source grows the output by
`resize(offsets_out->size() + 0)` — i.e. not at all — and then writes through
`offsets_out->back()`, appending the offset digits to the *previous* solution
when one exists and performing UB (modelled as a no-op, see the file header)
when the vector is empty; the push/pop discipline on `known_offsets` is
modelled by passing extended lists. -/
def findOffR (p1 p2 : Pattern) : Nat → List Int → Int → Bool →
    List (List Int) → List (List Int)
  | 0, _, _, _, acc => acc
  | fuel+1, known, remainder, keepAll, acc =>
      let n := numAxes p1
      let raxis := n - 1 - known.length
      let stride := strideAt p1 raxis
      let thisOffset := Int.tdiv remainder stride
      let nextRemainder := remainder - stride * thisOffset
      if raxis = 0 then
        if nextRemainder = 0 then
          if acc.isEmpty then acc
          else acc.dropLast ++ [(acc.getLast?.getD []) ++ thisOffset :: known.reverse]
        else acc
      else
        let acc1 :=
          if thisOffset > -(dimAt p2 raxis) && thisOffset < dimAt p1 raxis then
            findOffR p1 p2 fuel (known ++ [thisOffset]) nextRemainder keepAll acc
          else acc
        if nextRemainder = 0 || (!keepAll && !acc1.isEmpty) then acc1
        else
          let change : Int := if nextRemainder > 0 then -1 else 1
          let thisOffset2 := thisOffset + change
          let nextRemainder2 := nextRemainder - stride * change
          if thisOffset2 > -(dimAt p2 raxis) && thisOffset2 < dimAt p1 raxis then
            findOffR p1 p2 fuel (known ++ [thisOffset2]) nextRemainder2 keepAll acc1
          else acc1

/-- `FindOffsets` from pattern-extra-utils.cc.  The call passes
`keep_all_offsets` where `FindOffsetsRecursive` expects the `remainder`
argument and `pattern2.offset - pattern1.offset` where it expects
`keep_all_offsets`; both conversions (bool→int64, int64→bool) are implicit in
C++, so this argument swap compiles and is reproduced faithfully. -/
def findOffsets (p1 p2 : Pattern) (keepAllOffsets : Bool) : List (List Int) :=
  findOffR p1 p2 (numAxes p1) [] (if keepAllOffsets then 1 else 0)
    (p2.offset - p1.offset ≠ 0) []

/-! ## Hyperrectangles (pattern-extra-utils.cc) -/

/-- A hyperrectangle: per-axis `(begin, end)` interval pairs. -/
abbrev Hyper := List (Int × Int)

/-- `SubtractHyperrectangles(a, b, i, difference)` from pattern-extra-utils.cc
(returning the appended hyperrectangles; `difference->append(a)` is the
evident `push_back`).  Faithful point: the recursion into the overlapping
middle sets axis `i` of `a` to the interval `(max(a_start, b_start),
min(a_start, b_start))` — the source computes `intersection_end` as
`std::min(a_start, b_start)` where `min(a_end, b_end)` was evidently meant —
which is an empty (or reversed) interval.  `fuel` is `a.length + 1` at the top
call and bounds the axis recursion. -/
def subtractHyper : Nat → Hyper → Hyper → Nat → List Hyper
  | 0, a, _, _ => [a]
  | fuel+1, a, b, i =>
      let size := a.length
      let aStart := (a.getD i (0, 0)).1
      let aEnd := (a.getD i (0, 0)).2
      let bStart := (b.getD i (0, 0)).1
      let bEnd := (b.getD i (0, 0)).2
      if bStart < aEnd && bEnd > aStart then
        (if aStart < bStart then [a.set i (aStart, bStart)] else []) ++
        (if aEnd > bEnd then [a.set i (bEnd, aEnd)] else []) ++
        (if i + 1 < size then
          subtractHyper fuel (a.set i (max aStart bStart, min aStart bStart)) b (i+1)
        else [])
      else [a]

/-- `OffsetToHyperrectangle` from pattern-extra-utils.cc: per axis, the
interval `[max(o, 0), min(pattern1.dims[raxis], o + pattern2.dims[raxis]))`
(in-function assertions and the temporary testing block are diagnostic only
and not modelled). -/
def offsetToHyper (p1 p2 : Pattern) (o : List Int) : Hyper :=
  (List.range (numAxes p1)).map (fun raxis =>
    let oo := o.getD raxis 0
    (max oo 0, min (dimAt p1 raxis) (oo + dimAt p2 raxis)))

/-- `GetFullHyperrectangleOfPattern` from pattern-extra-utils.cc. -/
def fullHyper (src : Pattern) : Hyper :=
  (List.range (numAxes src)).map (fun r => ((0 : Int), dimAt src r))

/-- `HyperrectangleToPattern(src, h, dest)` from pattern-extra-utils.cc:
`dims[r] = end - begin`, strides copied, `offset += begin * stride` per axis
(`SetDefaultCodeAndProperties`, not among the provided sources, can only mark
the fresh pattern's cache stale: code = -1). -/
def hyperToPattern (src : Pattern) (h : Hyper) : Pattern :=
  { dims := (List.range (numAxes src)).map (fun r => (h.getD r (0,0)).2 - (h.getD r (0,0)).1),
    strides := (List.range (numAxes src)).map (strideAt src),
    offset := src.offset +
      (List.range (numAxes src)).foldl
        (fun acc r => acc + (h.getD r (0,0)).1 * strideAt src r) 0,
    code := -1 }

/-- `OffsetToPattern(pattern1, pattern2, o, dest)` from pattern-extra-utils.cc,
exactly as written: the loop declares `int32 offset = o[r]`, shadowing the
outer `int64 offset = pattern1.offset` accumulator; in the nonnegative branch
the statement `offset += int64(offset) * stride` therefore updates only the
shadowing variable, and the final `dest->offset = offset` stores the outer
accumulator, which is never changed from `pattern1.offset`. -/
def offsetToPattern (p1 p2 : Pattern) (o : List Int) : Pattern :=
  { dims := (List.range (numAxes p1)).map (fun r =>
      let off := o.getD r 0
      if off ≥ 0 then
        let off2 := off + off * strideAt p1 r
        min (dimAt p1 r - off2) (dimAt p2 r)
      else min (dimAt p1 r) (dimAt p2 r + off)),
    strides := (List.range (numAxes p1)).map (strideAt p1),
    offset := p1.offset,
    code := -1 }

/-! ## ComputeIntersection / ComputeDifference / PatternIsSubsetOf
(pattern-extra-utils.cc) -/

/-- The inner pair loop of `ComputeIntersection` (over `patterns2` for a fixed
`sub_pattern1`): each offset found becomes one intersection piece via
`OffsetToPattern(pattern1, pattern2, ...)` — note the source passes the
*canonicalized originals*, not the sub-patterns; in fast mode
(`!keep_all_patterns`) the function returns as soon as the accumulated
intersection is nonempty (second component `true`). -/
def interInner (p1c p2c : Pattern) (keepAll : Bool) (sub1 : Pattern) :
    List Pattern → List Pattern → (List Pattern × Bool)
  | acc, [] => (acc, false)
  | acc, sub2 :: rest =>
      let offsets := findOffsets sub1 sub2 keepAll
      let acc1 := acc ++ offsets.map (offsetToPattern p1c p2c)
      if !keepAll && !acc1.isEmpty then (acc1, true)
      else interInner p1c p2c keepAll sub1 acc1 rest

/-- The outer pair loop of `ComputeIntersection` (over `patterns1`). -/
def interOuter (p1c p2c : Pattern) (keepAll : Bool) (ps2 : List Pattern) :
    List Pattern → List Pattern → List Pattern
  | acc, [] => acc
  | acc, sub1 :: rest =>
      let r := interInner p1c p2c keepAll sub1 acc ps2
      if r.2 then r.1 else interOuter p1c p2c keepAll ps2 r.1 rest

/-- `ComputeIntersection(pattern1_in, pattern2_in, keep_all_patterns,
intersection)` from pattern-extra-utils.cc: canonicalize both inputs, collect
the union of strides, handle the zero-axis case specially (equal offsets →
the one-element pattern, else empty), convert both to the common strides
(returning `false` — modelled `some (false, [])` — when either conversion
fails; `none` when a conversion aborts), then enumerate offset solutions for
every sub-pattern pair.  The result pairs the returned bool with the output
vector. -/
def computeIntersection (p1In p2In : Pattern) (keepAllPatterns : Bool) :
    Option (Bool × List Pattern) :=
  let p1 := canonicalizeM p1In
  let p2 := canonicalizeM p2In
  let strides := findAllStrides p1 p2
  if strides.length = 0 then
    some (true, if p1.offset = p2.offset then [p1] else [])
  else
    match convertPatternStrides p1 strides with
    | .crashed => none
    | .failed => some (false, [])
    | .ok ps1 =>
        match convertPatternStrides p2 strides with
        | .crashed => none
        | .failed => some (false, [])
        | .ok ps2 => some (true, interOuter p1 p2 keepAllPatterns ps2 [] ps1)

/-- One `(sub_pattern2, sub_pattern1)` step of `ComputeDifference`'s nested
loops: if the (axis-dominance based) bounding ranges do not overlap, pass
`sub_pattern1` through; otherwise subtract each offset-piece's
hyperrectangle from the running rectangle list and convert what remains back
to patterns. -/
def diffOnePair (nStr : Nat) (sub2 : Pattern) (acc : List Pattern) (sub1 : Pattern) :
    List Pattern :=
  let begin2 := sub2.offset
  let end2 := begin2 + strideAt sub2 (nStr - 1) * dimAt sub2 (nStr - 1)
  let begin1 := sub1.offset
  let end1 := begin1 + strideAt sub1 (nStr - 1) * dimAt sub1 (nStr - 1)
  if begin2 ≥ end1 || begin1 ≥ end2 then acc ++ [sub1]
  else
    let offsets := findOffsets sub1 sub2 true
    let rects := offsets.foldl
      (fun curRects o =>
        let h := offsetToHyper sub1 sub2 o
        curRects.flatMap (fun rect => subtractHyper (rect.length + 1) rect h 0))
      [fullHyper sub1]
    acc ++ rects.map (hyperToPattern sub1)

/-- `ComputeDifference(pattern1, pattern2, difference)` from
pattern-extra-utils.cc: same canonicalize/convert preamble as the
intersection (zero-axis case: unequal offsets → `[pattern1]`), then
iteratively subtract each member of `patterns2` from the running difference
list. -/
def computeDifference (p1In p2In : Pattern) : Option (Bool × List Pattern) :=
  let p1 := canonicalizeM p1In
  let p2 := canonicalizeM p2In
  let strides := findAllStrides p1 p2
  if strides.length = 0 then
    some (true, if p1.offset ≠ p2.offset then [p1] else [])
  else
    match convertPatternStrides p1 strides with
    | .crashed => none
    | .failed => some (false, [])
    | .ok ps1 =>
        match convertPatternStrides p2 strides with
        | .crashed => none
        | .failed => some (false, [])
        | .ok ps2 =>
            some (true, ps2.foldl
              (fun cur sub2 => cur.foldl (diffOnePair strides.length sub2) []) ps1)

/-- `PatternIsSubsetOf(p, q)` from pattern-extra-utils.cc: true iff the total
element count of `ComputeIntersection(p, q, keep_all = true)` equals
`NumElements(p)` (the source ignores the intersection's return value). -/
def patternIsSubsetOf (p q : Pattern) : Option Bool :=
  (computeIntersection p q true).map (fun r =>
    decide (r.2.foldl (fun acc pat => acc + numElementsM pat) 0 = numElementsM p))

/-! ## Membership, brute force and the graduated PatternsIntersect
(pattern-extra-utils.cc) -/

/-- `PatternContains(pattern_in, mindex)` from pattern-extra-utils.cc:
canonicalize if needed, subtract the offset, then divide by each stride from
the highest axis down, rejecting when a quotient leaves `[0, dims[raxis])`
(the source's `uint32` comparison trick); finally demand remainder zero. -/
def patternContains (pIn : Pattern) (mindex : Int) : Bool :=
  let pat := if isCanonicalM pIn then pIn else canonicalizeM pIn
  let st := (List.range (numAxes pat)).reverse.foldl
    (fun (acc : Int × Bool) raxis =>
      if acc.2 then acc
      else
        let idx := Int.tdiv acc.1 (strideAt pat raxis)
        if idx < 0 || idx ≥ dimAt pat raxis then (acc.1, true)
        else (acc.1 - strideAt pat raxis * idx, false))
    (mindex - pat.offset, false)
  !st.2 && st.1 = 0

/-- `ToMemoryIndexSet(pattern_in, s)` from pattern-extra-utils.cc: a
characteristic vector of length `strides[num_axes-1] * dims[num_axes-1]` (a
strict upper bound on the largest memory-index only under axis dominance);
position `i` is marked iff some index tuple reaches it.  The source's
`recursively_set_elements` writes out of bounds when the bound is not actually
an upper bound; such writes (and negative positions) are dropped here. -/
def toMemoryIndexSet (pIn : Pattern) : List Bool :=
  let pat := if isCanonicalM pIn then pIn else canonicalizeM pIn
  let n := max (numAxes pat) 1
  let endM := strideAt pat (n - 1) * dimAt pat (n - 1)
  (List.range endM.toNat).map (fun i => (mindexList pat).contains (i : Int))

/-- `PatternsIntersectSlow(pattern1_in, pattern2_in)` from
pattern-extra-utils.cc: canonicalize, rebase both offsets by their minimum,
materialize both characteristic vectors and scan for a common marked
position.  Faithful point: the scan's loop condition tests
`iter1 != pattern1_mindexes.begin()` (where `end()` was evidently meant), so
with both iterators starting at `begin() + max_offset` the loop body never
runs when `max_offset == 0` and the function returns false; when `max_offset
> 0` the loop runs until `iter2` reaches `s2.end()` (reads past `s1`'s end —
UB — are modelled as `false`). -/
def patternsIntersectSlow (p1In p2In : Pattern) : Bool :=
  let p1 := canonicalizeM p1In
  let p2 := canonicalizeM p2In
  let minOff := min p1.offset p2.offset
  let p1 := { p1 with offset := p1.offset - minOff }
  let p2 := { p2 with offset := p2.offset - minOff }
  let maxOff := max p1.offset p2.offset
  let s1 := toMemoryIndexSet p1
  let s2 := toMemoryIndexSet p2
  if maxOff = 0 then false
  else (List.range s2.length).any (fun pos =>
    pos ≥ maxOff.toNat && s1.getD pos false && s2.getD pos false)

/-- The randomized-sampling fallback stage of `PatternsIntersect`
(pattern-extra-utils.cc lines following the rate-limited warning): draw
`num_draws = 10` random memory-indexes from the smaller pattern (by
`NumElements`) and test each for membership in the other; any hit returns
true; if all miss, fall through to `PatternsIntersectSlow`.  The random draws
(`RandomMemoryIndex` outputs) are supplied as the `draws` list. -/
def patternsIntersectFallback (p1 p2 : Pattern) (draws : List Int) : Bool :=
  if numElementsM p1 < numElementsM p2 then
    if draws.any (fun m => patternContains p2 m) then true
    else patternsIntersectSlow p1 p2
  else
    if draws.any (fun m => patternContains p1 m) then true
    else patternsIntersectSlow p1 p2

/-- `PatternsIntersect(pattern1, pattern2)` from pattern-extra-utils.cc: the
graduated strategy — bounding-range disjointness via
`ComputeMinAndMaxMindex`; then a containment test of one pattern's minimum in
the other; then fast-mode `ComputeIntersection` (the source's call has its
last two arguments swapped, which does not compile — a `vector<Pattern>*`
cannot convert to `bool` — so the evident intended order is used); if the
conversion fails, the sampling-then-brute-force fallback.  `draws` supplies
the random samples; `none` propagates a conversion crash. -/
def patternsIntersect (p1 p2 : Pattern) (draws : List Int) : Option Bool :=
  let mm1 := computeMinAndMaxMindex p1
  let mm2 := computeMinAndMaxMindex p2
  if mm2.1 > mm1.2 || mm1.1 > mm2.2 then some false
  else if (if mm2.1 ≥ mm1.1 then patternContains p1 mm2.1
           else patternContains p2 mm1.1) then some true
  else match computeIntersection p1 p2 false with
    | none => none
    | some (b, inter) =>
        if b then some (!inter.isEmpty)
        else some (patternsIntersectFallback p1 p2 draws)

/-! ## Concrete inputs used by the claim theorems -/

/-- C1 failing input: dims {4,2}, strides {1,2}, offset 0 (private order);
memory-index set {0..5}; valid, canonical, broadcastable with itself, but not
regular, so the stride conversion must either split it or fail — instead the
broken regularity check silently rewrites it to cover only {0,1,2,3}. -/
def c1p : Pattern := ⟨[4, 2], [1, 2], 0, -1⟩

/-- C3 inputs: a one-axis pattern with nonzero offset, and an offset-0 copy. -/
def c3p : Pattern := ⟨[2], [1], 5, -1⟩

/-- Offset-0 companion of `c3p`. -/
def c3q : Pattern := ⟨[2], [1], 0, -1⟩

/-- C4 inputs: a stride-1 vector, and a negative-stride vector. -/
def c4a : Pattern := ⟨[2], [1], 0, -1⟩

/-- Negative-stride companion for C4. -/
def c4b : Pattern := ⟨[5], [-1], 0, -1⟩

/-- C5 counterexample: canonical; axis 0 (stride 2, dim 4) reaches its `k` at
axis 2 (stride 100 ≥ 8), and the intervening axis 1 has dim 2 ≠ 1 but stride
4 divisible by 2 — regular by the claim's disjunctive reading, rejected by
the code's conjunctive test. -/
def c5p : Pattern := ⟨[4, 2, 2], [2, 4, 100], 0, -1⟩

/-- C6 input: dim 9, stride -1, offset 8 (memory-index set {0..8}). -/
def c6p : Pattern := ⟨[9], [-1], 8, -1⟩

/-- C7 input: a plain two-element contiguous pattern. -/
def c7p : Pattern := ⟨[2], [1], 0, -1⟩

/-- C8 input: public dims [9, 10], i.e. private dims {10, 9}. -/
def c8p : Pattern := ⟨[10, 9], [1, 10], 0, -1⟩

/-- C8 squeeze input: public dims [7, 1], i.e. private dims {1, 7}. -/
def c8q : Pattern := ⟨[1, 7], [0, 7], 0, -1⟩

/-- C9 input: private dims {3, 4}, strides {1, 3}, with its cached code set to
the value `computePatternCode` returns for it (262), i.e. up to date. -/
def c9p : Pattern := ⟨[3, 4], [1, 3], 0, 262⟩

/-- The result of `Slice(axis = 0, start = 0, end = 1)` on `c9p`: the sliced
axis's dim becomes 1, its stride is *not* zeroed (the source's `==` slip), and
the cached code is left at 262 (the patch clears bit `raxis - 1` = bit 0,
which was already clear). -/
def c9s : Pattern := ⟨[3, 1], [1, 3], 0, 262⟩

/-! ## Claim theorems (concrete) -/

/-- Claim C1 (status: code_bug).  At the valid, self-broadcastable input
`c1p`, both `ComputeIntersection(c1p, c1p, keep_all = true)` and
`ComputeDifference(c1p, c1p)` return true, yet the union of the memory-index
sets of their outputs is {0,1,2,3}, not `set(c1p)` = {0..5}: the partition
law fails on the code.  (The conversion's broken regularity check corrupts
the pattern instead of rejecting it, and the offset enumeration's
resize-by-zero base case drops every intersection piece.) -/
theorem C1_partition_law_fails :
    isValidM c1p = true ∧ broadcastableM c1p c1p = true ∧
    (computeIntersection c1p c1p true).map Prod.fst = some true ∧
    (computeDifference c1p c1p).map Prod.fst = some true ∧
    unionSets (((computeIntersection c1p c1p true).map Prod.snd).getD []) ∪
      unionSets (((computeDifference c1p c1p).map Prod.snd).getD [])
      = ({0, 1, 2, 3} : Finset Int) ∧
    mindexSetF c1p = ({0, 1, 2, 3, 4, 5} : Finset Int) ∧
    unionSets (((computeIntersection c1p c1p true).map Prod.snd).getD []) ∪
      unionSets (((computeDifference c1p c1p).map Prod.snd).getD [])
      ≠ mindexSetF c1p := by decide

/-- Claim C3 (status: code_bug).  `ComputeMinAndMaxMindex` on the valid
pattern `c3p` (dims {2}, strides {1}, offset 5) returns (0, 1), but the
memory-index set is {5, 6}, whose minimum is 5: neither extreme includes
`p.offset` as the claim requires.  Consequently `PatternsIntersect`'s first
stage does not reject the disjoint pair (`c3q`, `c3p`) (sets {0,1} vs {5,6}),
and the following containment stage even answers `true`. -/
theorem C3_min_max_mindex_omits_offset :
    isValidM c3p = true ∧
    computeMinAndMaxMindex c3p = (0, 1) ∧
    mindexSetF c3p = ({5, 6} : Finset Int) ∧
    mindexSetF c3q ∩ mindexSetF c3p = ∅ ∧
    patternsIntersect c3q c3p [] = some true := by decide

/-- Claim C4 (status: code_bug).  `ComputePatternCode` contradicts the layout
the claim (and the function's own header documentation, which lists
`dims=[X] ↦ 0x101`) describes: for `c4a` (dims {2}, strides {1}) it returns
258 = 0x102 — the dim bit for raxis 0 lands on bit 1, not bit 0 — instead of
257 = 0x101; and for `c4b` (dims {5}, strides {-1}) it returns 2 with bit 11
clear (the source tests `dim < 0`, never true for a valid pattern, instead of
`stride < 0`) where the claim requires 2049 = 0x801. -/
theorem C4_pattern_code_contradicts_layout :
    isValidM c4a = true ∧ isValidM c4b = true ∧
    computePatternCode c4a = 258 ∧ claimedPatternCode c4a = 257 ∧
    computePatternCode c4a ≠ claimedPatternCode c4a ∧
    computePatternCode c4b = 2 ∧ claimedPatternCode c4b = 2049 ∧
    computePatternCode c4b ≠ claimedPatternCode c4b := by decide

/-- Claim C5 counterexample (status: corrected).  At the canonical pattern
`c5p`, the claim's biconditional fails: the claimed (disjunctive) regularity
condition holds, yet `IsRegular` returns false — the code demands `dim_j = 1
*and* divisibility` of every intervening axis, not `or`. -/
theorem C5_claimed_iff_fails :
    isCanonicalM c5p = true ∧ claimedRegular c5p = true ∧ isRegular c5p = false ∧
    ¬(isRegular c5p = true ↔ claimedRegular c5p = true) := by decide

/-- Claim C6 (status: confirmed).  `CompressOnePattern` on dims {9}, strides
{-1}, offset 8 produces dims {9}, strides {1} with returned data offset -8,
and shifting the compressed pattern's memory-index set ({8..16}) by that
delta gives exactly the original set {0..8}. -/
theorem C6_compress_negative_stride :
    isValidM c6p = true ∧
    (compressOnePattern c6p).1.dims = [9] ∧
    (compressOnePattern c6p).1.strides = [1] ∧
    (compressOnePattern c6p).2 = -8 ∧
    (mindexSetF (compressOnePattern c6p).1).image (· + (compressOnePattern c6p).2)
      = mindexSetF c6p ∧
    mindexSetF c6p = ((List.range 9).map (Int.ofNat ·)).toFinset := by decide

/-- Claim C7 (status: code_bug).  Subset reflexivity fails on the code: for
the valid pattern `c7p`, `PatternIsSubsetOf(c7p, c7p)` returns false — the
intersection comes back empty (total element count 0 ≠ NumElements = 2)
because `FindOffsetsRecursive`'s base case grows the output vector by
`size() + 0` and then writes through `back()`, losing every found offset. -/
theorem C7_subset_reflexivity_fails :
    isValidM c7p = true ∧ numElementsM c7p = 2 ∧
    patternIsSubsetOf c7p c7p = some false := by decide

/-- Claim C8 (status: code_bug).  The negative-axis wrappers do not implement
the "axis = -1 means last" convention: `Unsqueeze(-1, ·)` on public [9,10]
calls `UnsqueezeR(1 - (-1) = 2, ·)`, inserting the new axis at private
position 2 (public position 0), giving private dims {10,9,1} (public
[1,9,10]) instead of `Unsqueeze(2, ·)`'s {1,10,9} (public [9,10,1], as the
header's own example requires); `Squeeze(-1, ·)` on public [7,1] calls
`SqueezeR(2, ·)`, which is out of range (an error) instead of removing the
last public axis as `Squeeze(1, ·)` does. -/
theorem C8_negative_axis_wrappers_wrong :
    isValidM c8p = true ∧ isValidM c8q = true ∧
    (unsqueeze (-1) c8p).map Pattern.dims = some [10, 9, 1] ∧
    (unsqueeze 2 c8p).map Pattern.dims = some [1, 10, 9] ∧
    unsqueeze (-1) c8p ≠ unsqueeze 2 c8p ∧
    squeeze (-1) c8q = none ∧
    (squeeze 1 c8q).map Pattern.dims = some [7] ∧
    squeeze (-1) c8q ≠ squeeze 1 c8q := by decide

/-- Claim C9 (status: code_bug).  Code-cache coherence fails after `Slice`:
`c9p` carries an up-to-date cache (262 = `ComputePatternCode(c9p)`);
`Slice(axis = 0, start = 0, end = 1)` shrinks the sliced axis to dim 1 and
patches the cache — but clears bit `raxis - 1` instead of bit `raxis` — so
the result carries code 262, which is neither -1 nor
`ComputePatternCode` of the result (260): the cache is stale-but-trusted. -/
theorem C9_slice_code_cache_stale :
    isValidM c9p = true ∧
    computePatternCode c9p = 262 ∧ c9p.code = computePatternCode c9p ∧
    sliceP 0 0 1 c9p = some c9s ∧
    c9s.code = 262 ∧ c9s.code ≠ -1 ∧
    computePatternCode c9s = 260 ∧
    c9s.code ≠ computePatternCode c9s := by decide

/-! ## Supporting lemmas: the stride conversion can never return `failed` -/

/-- The dims slot at index `num_axes` is an unused slot and reads as 1. -/
theorem dimAt_numAxes (p : Pattern) : dimAt p (numAxes p) = 1 :=
  List.getD_eq_default _ _ le_rfl

/-- The strides slot at index `num_axes` is an unused slot and reads as 0. -/
theorem strideAt_numAxes (p : Pattern) : strideAt p (numAxes p) = 0 := by
  simp [strideAt, numAxes]

/-- The `EnsureAxisSortingPropertyHolds` scan can never fail: its failure test
examines `dims[k]` / `strides[k]` with `k` still equal to `num_axes`, i.e.
always the unused slot holding dim 1 / stride 0, for which the condition is
false. -/
theorem easphScan_ne_none (pat : Pattern) (prod stride : Int) :
    ∀ fuel j, easphScan pat prod stride fuel j ≠ none := by
  intro fuel
  induction fuel with
  | zero => intro j; simp [easphScan]
  | succ fuel ih =>
      intro j
      rw [easphScan]
      rw [dimAt_numAxes, strideAt_numAxes]
      simp only [Int.zero_tmod]
      split
      · simp
      · split
        · simp
        · split
          · simp_all
          · exact ih (j + 1)

/-- `EnsureAxisSortingPropertyHolds` never returns false. -/
theorem ensureASPH_ne_none (raxis idx : Nat) (ps : List Pattern) :
    ensureASPH raxis idx ps ≠ none := by
  simp only [ensureASPH]
  split
  · simp
  · rcases hs : easphScan (ps.getD idx default)
        (strideAt (ps.getD idx default) raxis * dimAt (ps.getD idx default) raxis)
        (strideAt (ps.getD idx default) raxis)
        (numAxes (ps.getD idx default)) (raxis + 1) with _ | k
    · exact absurd hs (easphScan_ne_none _ _ _ _ _)
    · simp [hs]

/-- The inner conversion loop never returns `none`. -/
theorem convertInner_ne_none (raxis : Nat) :
    ∀ fuel pIdx ps, convertInner raxis fuel pIdx ps ≠ none := by
  intro fuel
  induction fuel with
  | zero => intro pIdx ps; simp [convertInner]
  | succ fuel ih =>
      intro pIdx ps
      rw [convertInner]
      split
      · simp
      · rcases he : ensureASPH raxis pIdx ps with _ | ps'
        · exact absurd he (ensureASPH_ne_none _ _ _)
        · exact ih (pIdx + 1) ps'

/-- An `Option`-valued fold whose stepper never returns `none` never returns
`none`. -/
theorem foldlM_option_ne_none {α β : Type} (f : β → α → Option β)
    (h : ∀ b a, f b a ≠ none) :
    ∀ (l : List α) (b : β), l.foldlM f b ≠ none := by
  intro l
  induction l with
  | nil => intro b; simp
  | cons a as ih =>
      intro b
      rcases hf : f b a with _ | b'
      · exact absurd hf (h b a)
      · simpa [List.foldlM, hf] using ih b'

/-- `ConvertPatternStrides` can never return false: the only failure source
is `EnsureAxisSortingPropertyHolds`, whose failure branch is unreachable. -/
theorem convertPatternStrides_ne_failed (pat : Pattern) (strides : List Int) :
    convertPatternStrides pat strides ≠ ConvResult.failed := by
  unfold convertPatternStrides
  rcases convertLazily pat strides with _ | p0
  · simp
  · rcases hf : (List.range (strides.length - 1)).foldlM
        (fun ps raxis => convertInner raxis 100 0 ps) [p0] with _ | l
    · exact absurd hf
        (foldlM_option_ne_none _ (fun ps raxis => convertInner_ne_none raxis 100 0 ps) _ _)
    · simp [hf]

/-- Whenever `ComputeIntersection` completes (does not crash), the bool it
returns is true. -/
theorem computeIntersection_fst_true (p1 p2 : Pattern) (k : Bool)
    (r : Bool × List Pattern) (h : computeIntersection p1 p2 k = some r) :
    r.1 = true := by
  simp only [computeIntersection] at h
  split at h
  · rw [← Option.some.inj h]
  · rcases hc1 : convertPatternStrides (canonicalizeM p1)
        (findAllStrides (canonicalizeM p1) (canonicalizeM p2)) with _ | _ | l1
    · rw [hc1] at h; exact absurd h (by simp)
    · exact absurd hc1 (convertPatternStrides_ne_failed _ _)
    · rw [hc1] at h
      rcases hc2 : convertPatternStrides (canonicalizeM p2)
          (findAllStrides (canonicalizeM p1) (canonicalizeM p2)) with _ | _ | l2
      · rw [hc2] at h; exact absurd h (by simp)
      · exact absurd hc2 (convertPatternStrides_ne_failed _ _)
      · rw [hc2] at h; rw [← Option.some.inj h]

/-- Claim C2 (status: confirmed).  For valid, broadcastable inputs on which
the computation completes (the `KALDI_ERR` abort inside the lazy conversion,
modelled as `none`, yields no return value at all): (a) a false return
implies the stride conversion failed for both inputs — vacuously, since the
conversion's failure branch is unreachable (its regularity test reads the
unused slot `dims[num_axes]`); and (b) whenever at least one input converts
successfully, the function returns true — indeed it always returns true. -/
theorem C2_intersection_false_only_on_double_failure :
    ∀ (p1 p2 : Pattern) (keepAll : Bool),
      isValidM p1 = true → isValidM p2 = true → broadcastableM p1 p2 = true →
      computeIntersection p1 p2 keepAll ≠ none →
      (((computeIntersection p1 p2 keepAll).map Prod.fst = some false →
          convertPatternStrides (canonicalizeM p1)
            (findAllStrides (canonicalizeM p1) (canonicalizeM p2)) = ConvResult.failed ∧
          convertPatternStrides (canonicalizeM p2)
            (findAllStrides (canonicalizeM p1) (canonicalizeM p2)) = ConvResult.failed) ∧
       (((∃ l, convertPatternStrides (canonicalizeM p1)
             (findAllStrides (canonicalizeM p1) (canonicalizeM p2)) = ConvResult.ok l) ∨
         (∃ l, convertPatternStrides (canonicalizeM p2)
             (findAllStrides (canonicalizeM p1) (canonicalizeM p2)) = ConvResult.ok l)) →
        (computeIntersection p1 p2 keepAll).map Prod.fst = some true)) := by
  intro p1 p2 keepAll _ _ _ hnn
  rcases hr : computeIntersection p1 p2 keepAll with _ | r
  · exact absurd hr hnn
  · have hfst := computeIntersection_fst_true p1 p2 keepAll r hr
    constructor
    · intro hfalse
      simp [hfst] at hfalse
    · intro _
      simp [hfst]

/-- Witness for C2 at a concrete input (dims {2}, strides {1}): the
hypotheses hold and the conclusion's part (b) applies, giving a true
return. -/
theorem C2_intersection_witness :
    isValidM c7p = true ∧ broadcastableM c7p c7p = true ∧
    computeIntersection c7p c7p true ≠ none ∧
    convertPatternStrides (canonicalizeM c7p)
        (findAllStrides (canonicalizeM c7p) (canonicalizeM c7p))
      = ConvResult.ok [⟨[2], [1], 0, -1⟩] ∧
    (computeIntersection c7p c7p true).map Prod.fst = some true :=
  ⟨by decide, by decide, by decide, by decide,
   (C2_intersection_false_only_on_double_failure c7p c7p true (by decide) (by decide)
      (by decide) (by decide)).2
     (Or.inl ⟨[⟨[2], [1], 0, -1⟩], by decide⟩)⟩

/-- Claim C10 (status: confirmed).  The randomized-sampling stage of
`PatternsIntersect` can only decide "true": its result is either `true` (a
sample hit) or exactly `PatternsIntersectSlow`'s result; in particular, when
every drawn sample misses the tested pattern, the stage does not return false
but falls through to the exhaustive check. -/
theorem C10_sampling_stage_cannot_decide_false :
    ∀ (p1 p2 : Pattern) (draws : List Int),
      (patternsIntersectFallback p1 p2 draws = true ∨
       patternsIntersectFallback p1 p2 draws = patternsIntersectSlow p1 p2) ∧
      ((∀ m ∈ draws,
          patternContains (if numElementsM p1 < numElementsM p2 then p2 else p1) m = false) →
        patternsIntersectFallback p1 p2 draws = patternsIntersectSlow p1 p2) := by
  intro p1 p2 draws
  unfold patternsIntersectFallback
  by_cases h : numElementsM p1 < numElementsM p2
  · simp only [if_pos h]
    constructor
    · cases h2 : draws.any (fun m => patternContains p2 m)
      · right; simp [h2]
      · left; simp [h2]
    · intro hall
      have h2 : draws.any (fun m => patternContains p2 m) = false := by
        simp only [List.any_eq_false]
        intro m hm
        simp [hall m hm]
      simp [h2]
  · simp only [if_neg h]
    constructor
    · cases h2 : draws.any (fun m => patternContains p1 m)
      · right; simp [h2]
      · left; simp [h2]
    · intro hall
      have h2 : draws.any (fun m => patternContains p1 m) = false := by
        simp only [List.any_eq_false]
        intro m hm
        simp [hall m hm]
      simp [h2]

/-- Witness for C10 at concrete inputs: ten — here one suffices, the list
models the drawn samples — missing samples, and the stage's result equals the
exhaustive check's result. -/
theorem C10_sampling_witness :
    patternContains (if numElementsM c3q < numElementsM c3p then c3p else c3q) 100
      = false ∧
    patternsIntersectFallback c3q c3p [100] = patternsIntersectSlow c3q c3p :=
  ⟨by decide,
   (C10_sampling_stage_cannot_decide_false c3q c3p [100]).2 (by decide)⟩

/-! ## Supporting lemmas for C5: the scan of `IsRegular` against the
quantified regularity condition -/

/-- Characterization of `IsRegular`'s inner scan: with enough fuel, the scan
from `j` succeeds iff every axis `jj ≥ j` that is reached before the break
(i.e. such that all of `strides[j..jj]` are below `this_prod`) satisfies the
conjunctive intervening-axis condition. -/
theorem isRegularScan_iff (p : Pattern) (prod stride : Int) :
    ∀ (fuel j : Nat), numAxes p ≤ j + fuel →
      (isRegularScan p prod stride fuel j = true ↔
        ∀ jj, j ≤ jj → jj < numAxes p →
          (∀ l, j ≤ l → l ≤ jj → strideAt p l < prod) →
          (dimAt p jj = 1 ∧ Int.tmod (strideAt p jj) stride = 0)) := by
  intro fuel
  induction fuel with
  | zero =>
      intro j hj
      simp only [isRegularScan]
      constructor
      · intro _ jj h1 h2 _; omega
      · intro _; trivial
  | succ fuel ih =>
      intro j hj
      rw [isRegularScan]
      by_cases hjn : j ≥ numAxes p
      · rw [if_pos hjn]
        constructor
        · intro _ jj h1 h2 _; omega
        · intro _; rfl
      · rw [if_neg hjn]
        by_cases hbr : strideAt p j ≥ prod
        · rw [if_pos hbr]
          constructor
          · intro _ jj h1 _ hall
            exact absurd (hall j le_rfl h1) (not_lt.mpr hbr)
          · intro _; rfl
        · rw [if_neg hbr]
          by_cases hcond : dimAt p j = 1 ∧ Int.tmod (strideAt p j) stride = 0
          · have hcb : (decide ¬dimAt p j = 1 || decide ¬Int.tmod (strideAt p j) stride = 0)
                = false := by simp [hcond.1, hcond.2]
            rw [hcb]
            simp only [Bool.false_eq_true, if_false]
            rw [ih (j+1) (by omega)]
            constructor
            · intro hrec jj h1 h2 hall
              by_cases hje : jj = j
              · exact hje ▸ hcond
              · exact hrec jj (by omega) h2 (fun l hl1 hl2 => hall l (by omega) hl2)
            · intro hgen jj h1 h2 hall
              exact hgen jj (by omega) h2
                (fun l hl1 hl2 => by
                  by_cases hlj : l = j
                  · subst hlj; omega
                  · exact hall l (by omega) hl2)
          · have hcb : (decide ¬dimAt p j = 1 || decide ¬Int.tmod (strideAt p j) stride = 0)
                = true := by
              rcases not_and_or.mp hcond with h | h <;> simp [h]
            rw [hcb]
            simp only [if_true]
            constructor
            · intro hfalse; exact absurd hfalse (by simp)
            · intro hgen
              exact absurd (hgen j le_rfl (by omega)
                (fun l hl1 hl2 => by
                  have : l = j := by omega
                  subst this; omega)) hcond

/-- Characterization of `kOfAux`: starting the upward scan at `j ≤ num_axes`
with enough fuel, the result `k` satisfies: it is at most `num_axes` and at
least `j`; every axis in `[j, k)` has stride below `prod`; and any `jj < n`
reachable from `j` through strides all below `prod` lies below `k` (i.e. `k`
is the first break point). -/
theorem kOfAux_spec (p : Pattern) (prod : Int) :
    ∀ (fuel j : Nat), numAxes p ≤ j + fuel → j ≤ numAxes p →
      (kOfAux p prod fuel j ≤ numAxes p ∧
       j ≤ kOfAux p prod fuel j ∧
       (∀ l, j ≤ l → l < kOfAux p prod fuel j → strideAt p l < prod) ∧
       (∀ jj, j ≤ jj → jj < numAxes p →
          (∀ l, j ≤ l → l ≤ jj → strideAt p l < prod) →
          jj < kOfAux p prod fuel j)) := by
  intro fuel
  induction fuel with
  | zero =>
      intro j hfuel hle
      simp only [kOfAux]
      refine ⟨le_rfl, hle, ?_, ?_⟩
      · intro l h1 h2; omega
      · intro jj h1 h2 _; omega
  | succ fuel ih =>
      intro j hfuel hle
      rw [kOfAux]
      by_cases hjn : j ≥ numAxes p
      · rw [if_pos hjn]
        refine ⟨le_rfl, hle, ?_, ?_⟩
        · intro l h1 h2; omega
        · intro jj h1 h2 _; omega
      · rw [if_neg hjn]
        by_cases hbr : strideAt p j ≥ prod
        · rw [if_pos hbr]
          refine ⟨by omega, le_rfl, ?_, ?_⟩
          · intro l h1 h2; omega
          · intro jj h1 _ hall
            exact absurd (hall j le_rfl h1) (not_lt.mpr hbr)
        · rw [if_neg hbr]
          obtain ⟨hA, hB, hC, hD⟩ := ih (j+1) (by omega) (by omega)
          refine ⟨hA, by omega, ?_, ?_⟩
          · intro l h1 h2
            by_cases hlj : l = j
            · subst hlj; omega
            · exact hC l (by omega) h2
          · intro jj h1 h2 hall
            by_cases hje : jj = j
            · omega
            · exact hD jj (by omega) h2 (fun l hl1 hl2 => hall l (by omega) hl2)

/-- Per-axis bridge for C5: the code's scan for axis `i` succeeds iff every
axis strictly between `i` and `k` (the first break index, `kOf`) satisfies the
conjunctive condition. -/
theorem axis_regular_iff (p : Pattern) (i : Nat) (hi : i < numAxes p) :
    ((if i + 1 < numAxes p then
        isRegularScan p (strideAt p i * dimAt p i) (strideAt p i) (numAxes p) (i+1)
      else true) = true) ↔
    (∀ j, i < j → j < kOf p i →
      (dimAt p j = 1 ∧ Int.tmod (strideAt p j) (strideAt p i) = 0)) := by
  by_cases hlt : i + 1 < numAxes p
  · rw [if_pos hlt]
    obtain ⟨hA, hB, hC, hD⟩ :=
      kOfAux_spec p (strideAt p i * dimAt p i) (numAxes p) (i+1) (by omega) (by omega)
    rw [isRegularScan_iff p _ _ (numAxes p) (i+1) (by omega)]
    unfold kOf
    constructor
    · intro hs j h1 h2
      exact hs j (by omega) (by omega) (fun l hl1 hl2 => hC l hl1 (by omega))
    · intro hk jj h1 h2 hall
      exact hk jj (by omega) (hD jj h1 h2 hall)
  · rw [if_neg hlt]
    constructor
    · intro _ j h1 h2
      have hA := (kOfAux_spec p (strideAt p i * dimAt p i) (numAxes p) (i+1)
        (by omega) (by omega)).1
      unfold kOf at h2
      omega
    · intro _; trivial

/-- Claim C5, amended (status: corrected).  For every canonical Pattern,
`IsRegular` returns true iff for every axis `i`, either `dim_i = 1` or every
intervening axis `j` with `i < j < k` has `dim_j = 1` *and* `stride_j`
divisible by `stride_i` (the claim's "or" corrected to the code's "and"). -/
theorem C5_regular_iff_amended :
    ∀ p : Pattern, isCanonicalM p = true →
      (isRegular p = true ↔ amendedRegular p = true) := by
  intro p hc
  have hall2 : p.dims.all (fun d => d ≥ 2) = true := by
    unfold isCanonicalM at hc
    simp only [Bool.and_eq_true] at hc
    exact hc.1.1.2
  have hdim : ∀ i, i < numAxes p → dimAt p i ≠ 1 := by
    intro i hi
    have hi' : i < p.dims.length := hi
    have heq : dimAt p i = p.dims[i] := by
      unfold dimAt
      rw [List.getD_eq_getElem?_getD, List.getElem?_eq_getElem hi']
      rfl
    have h2 := List.all_eq_true.mp hall2 _ (List.getElem_mem hi')
    rw [heq]
    simp only [decide_eq_true_eq] at h2
    omega
  have hinner : ∀ i, i < numAxes p →
      (((List.range (numAxes p)).all (fun j =>
          !(decide (i < j) && decide (j < kOf p i)) ||
          (dimAt p j = 1 && Int.tmod (strideAt p j) (strideAt p i) = 0))) = true ↔
        (∀ j, i < j → j < kOf p i →
          (dimAt p j = 1 ∧ Int.tmod (strideAt p j) (strideAt p i) = 0))) := by
    intro i hi
    rw [List.all_eq_true]
    simp only [List.mem_range]
    constructor
    · intro h j h1 h2
      have hA := (kOfAux_spec p (strideAt p i * dimAt p i) (numAxes p) (i+1)
        (by omega) (by omega)).1
      have hjn : j < numAxes p := by unfold kOf at h2; omega
      have hb := h j hjn
      simp only [Bool.or_eq_true, Bool.and_eq_true, Bool.not_eq_true',
        Bool.and_eq_false_iff, decide_eq_true_eq, decide_eq_false_iff_not] at hb
      tauto
    · intro h j _
      by_cases hc2 : i < j ∧ j < kOf p i
      · have := h j hc2.1 hc2.2
        simp [this.1, this.2, hc2.1, hc2.2]
      · rcases not_and_or.mp hc2 with hn | hn <;> simp [hn]
  rw [isRegular, amendedRegular]
  rw [List.all_eq_true, List.all_eq_true]
  simp only [List.mem_range]
  constructor
  · intro h i hi
    have hb := (axis_regular_iff p i hi).mp (h i hi)
    have hd : (decide (dimAt p i = 1) : Bool) = false := by simp [hdim i hi]
    rw [hd, Bool.false_or]
    exact (hinner i hi).mpr hb
  · intro h i hi
    have hb := h i hi
    have hd : (decide (dimAt p i = 1) : Bool) = false := by simp [hdim i hi]
    rw [hd, Bool.false_or] at hb
    exact (axis_regular_iff p i hi).mpr ((hinner i hi).mp hb)

/-- Witness for the amended C5 at a concrete canonical pattern. -/
theorem C5_amended_witness :
    isCanonicalM c5p = true ∧ (isRegular c5p = true ↔ amendedRegular c5p = true) :=
  ⟨by decide, C5_regular_iff_amended c5p (by decide)⟩
